import Mathlib

/-!
Verification of the Text2ICS core against its specification.

The definitions below are a shallow embedding of the repository's core
modules:

* `src/eventcalendar/core/retry.py` (error classification),
* `src/eventcalendar/core/timezone_utils.py` (timezone resolution,
  time-string normalization, DST attachment),
* `src/eventcalendar/core/ics_builder.py` (event validation, date/time
  parsing, VEVENT construction and calendar merging),
* `src/eventcalendar/config/constants.py` (pattern tables and defaults),
* `exceptions.py` (the exception class hierarchy).

External libraries (pytz, dateutil, tzlocal, icalendar) are modelled as
explicit environment parameters or as small faithful models of the
documented library behaviour; everything that is code of this repository
is translated directly from the source.
-/

/-! ## String helpers (models of Python's `str.lower`, `str.upper`, `in`, `strip`) -/

/-- ASCII lower-casing of one character, as Python's `str.lower` acts on ASCII. -/
def charLower (c : Char) : Char :=
  if 'A' ≤ c && c ≤ 'Z' then Char.ofNat (c.toNat + 32) else c

/-- ASCII upper-casing of one character, as Python's `str.upper` acts on ASCII. -/
def charUpper (c : Char) : Char :=
  if 'a' ≤ c && c ≤ 'z' then Char.ofNat (c.toNat - 32) else c

/-- Model of Python's `str.lower` (ASCII fragment). -/
def lowerStr (s : String) : String := ⟨s.data.map charLower⟩

/-- Model of Python's `str.upper` (ASCII fragment). -/
def upperStr (s : String) : String := ⟨s.data.map charUpper⟩

/-- Predicate `leadsWith pat l`: true when `pat` is an initial segment of `l`. -/
def leadsWith : List Char → List Char → Bool
  | [], _ => true
  | _ :: _, [] => false
  | a :: as, b :: bs => a == b && leadsWith as bs

/-- Predicate `containsSub l pat`: true when `pat` occurs contiguously inside `l`:
the model of Python's `pat in l` on strings. -/
def containsSub : List Char → List Char → Bool
  | [], pat => pat.isEmpty
  | l@(_ :: rest), pat => leadsWith pat l || containsSub rest pat

/-- Model of Python's substring test `pat in s`. -/
def strContains (s pat : String) : Bool := containsSub s.data pat.data

theorem leadsWith_append (p t : List Char) : leadsWith p (p ++ t) = true := by
  induction p with
  | nil => rfl
  | cons a as ih => simp [leadsWith, ih]

theorem containsSub_of_leadsWith (l pat : List Char) (h : leadsWith pat l = true) :
    containsSub l pat = true := by
  cases l with
  | nil =>
    cases pat with
    | nil => rfl
    | cons a as => simp [leadsWith] at h
  | cons a rest => simp [containsSub, h]

theorem containsSub_cons_of (a : Char) (rest pat : List Char)
    (h : containsSub rest pat = true) : containsSub (a :: rest) pat = true := by
  simp [containsSub, h]

theorem containsSub_append_left (t l pat : List Char) (h : containsSub l pat = true) :
    containsSub (t ++ l) pat = true := by
  induction t with
  | nil => simpa using h
  | cons a as ih => exact containsSub_cons_of a (as ++ l) pat ih

theorem containsSub_append_middle (a p b : List Char) :
    containsSub (a ++ p ++ b) p = true := by
  rw [List.append_assoc]
  exact containsSub_append_left a (p ++ b) p
    (containsSub_of_leadsWith _ _ (leadsWith_append p b))

theorem leadsWith_append_right (p l t : List Char) (h : leadsWith p l = true) :
    leadsWith p (l ++ t) = true := by
  induction p generalizing l with
  | nil => rfl
  | cons a as ih =>
    cases l with
    | nil => simp [leadsWith] at h
    | cons b bs =>
      simp only [leadsWith, Bool.and_eq_true, beq_iff_eq] at h ⊢
      exact ⟨h.1, ih bs h.2⟩

theorem containsSub_append_right (l t pat : List Char) (h : containsSub l pat = true) :
    containsSub (l ++ t) pat = true := by
  induction l with
  | nil =>
    cases pat with
    | nil => cases t with
      | nil => rfl
      | cons c cs => simp [containsSub, leadsWith]
    | cons p ps => simp [containsSub, List.isEmpty] at h
  | cons a rest ih =>
    simp only [containsSub, Bool.or_eq_true] at h
    rcases h with h | h
    · exact containsSub_of_leadsWith _ _ (leadsWith_append_right _ _ t h)
    · exact containsSub_cons_of _ _ _ (ih h)

theorem string_data_append (a b : String) : (a ++ b).data = a.data ++ b.data := rfl

/-- The empty pattern is contained in every string. -/
theorem containsSub_nil (l : List Char) : containsSub l [] = true := by
  cases l with
  | nil => rfl
  | cons a rest => simp [containsSub, leadsWith]

/-! ## Constants from `src/eventcalendar/config/constants.py` -/

def ICS_PRODID : String := "-//NL Calendar Creator//EN"

def DEFAULT_REMINDER_MINUTES : Int := -30

def DEFAULT_EVENT_TITLE : String := "No Title"

def NON_RETRYABLE_ERROR_PATTERNS : List String :=
  ["invalid api key", "api_key_invalid", "api key expired", "permission denied",
   "quota exceeded", "invalid argument", "authentication", "unauthorized"]

def RETRYABLE_ERROR_PATTERNS : List String :=
  ["timeout", "deadline exceeded", "service unavailable", "resource exhausted",
   "connection", "network", "temporarily unavailable"]

def API_KEY_ERROR_PATTERNS : List String :=
  ["api key expired", "api_key_invalid", "invalid api key"]

def ABBR_TO_TZ : List (String × String) :=
  [("EST", "America/New_York"), ("EDT", "America/New_York"),
   ("CST", "America/Chicago"), ("CDT", "America/Chicago"),
   ("MST", "America/Denver"), ("MDT", "America/Denver"),
   ("PST", "America/Los_Angeles"), ("PDT", "America/Los_Angeles"),
   ("GMT", "Europe/London"), ("BST", "Europe/London"),
   ("CET", "Europe/Paris"), ("CEST", "Europe/Paris"),
   ("EET", "Europe/Athens"), ("EEST", "Europe/Athens"),
   ("AEST", "Australia/Sydney"), ("AEDT", "Australia/Sydney"),
   ("IST", "Asia/Kolkata")]

/-- Association-list lookup, first match wins (models a Python dict `get`). -/
def lookupPair (l : List (String × String)) (k : String) : Option String :=
  (l.find? (fun p => p.1 == k)).map (fun p => p.2)

/-! ## Exception model (`exceptions.py`) and the retry classifier
(`src/eventcalendar/core/retry.py`) -/

/-- The exception classes of `exceptions.py`. Every constructor other than
`generic` subclasses `CalendarAPIError`, exactly as in the source. -/
inductive ExcClass : Type where
  | generic (typeName : String)
  | calendarAPIError
  | timezoneResolutionError
  | eventValidationError
  | imageProcessingError
  | apiResponseError
  | retryExhaustedError
deriving DecidableEq

/-- Python's `isinstance(error, CalendarAPIError)`: true for the base class
and all of its subclasses. -/
def ExcClass.isCalendarAPIError : ExcClass → Bool
  | .generic _ => false
  | _ => true

/-- Python's `type(error).__name__`. -/
def ExcClass.pyTypeName : ExcClass → String
  | .generic n => n
  | .calendarAPIError => "CalendarAPIError"
  | .timezoneResolutionError => "TimezoneResolutionError"
  | .eventValidationError => "EventValidationError"
  | .imageProcessingError => "ImageProcessingError"
  | .apiResponseError => "APIResponseError"
  | .retryExhaustedError => "RetryExhaustedError"

/-- A Python exception as seen by the retry classifier: its class, its
`str(...)` message, and an optional `__cause__` (message, type name). -/
structure PyError where
  cls : ExcClass
  message : String
  cause : Option (String × String)
deriving DecidableEq

/-- Embedding of `is_retryable_error` from `src/eventcalendar/core/retry.py`. -/
def is_retryable_error (e : PyError) : Bool :=
  if e.cls.isCalendarAPIError then false
  else
    let error_str := lowerStr e.message
    let error_type := lowerStr e.cls.pyTypeName
    if NON_RETRYABLE_ERROR_PATTERNS.any
        (fun p => strContains error_str p || strContains error_type p) then false
    else if (match e.cause with
             | some c => NON_RETRYABLE_ERROR_PATTERNS.any
                 (fun p => strContains (lowerStr c.1) p || strContains (lowerStr c.2) p)
             | none => false) then false
    else if RETRYABLE_ERROR_PATTERNS.any
        (fun p => strContains error_str p || strContains error_type p) then true
    else true

/-- Embedding of `is_api_key_error` from `src/eventcalendar/core/retry.py`. -/
def is_api_key_error (e : PyError) : Bool :=
  let error_str := lowerStr e.message
  API_KEY_ERROR_PATTERNS.any (fun p => strContains error_str p)

/-! ## Timezone model (`src/eventcalendar/core/timezone_utils.py`)

Naive local datetimes and absolute instants are both measured in minutes
(`Int`).  A pytz zone is modelled by its standard and DST utc-offsets and
one DST interval of absolute instants, which is enough to express pytz's
`localize` semantics: `is_dst=None` raises on ambiguous or non-existent
wall times, `is_dst=True` prefers the DST reading. -/

/-- Model of a pytz `DstTzInfo` zone: offsets in minutes and one DST
interval `[dstStart, dstEnd)` of absolute instants. -/
structure PytzZone where
  stdOffset : Int
  dstOffset : Int
  dstStart : Int
  dstEnd : Int

/-- The utc offset the zone applies at absolute instant `t`. -/
def PytzZone.offsetAt (z : PytzZone) (t : Int) : Int :=
  if z.dstStart ≤ t ∧ t < z.dstEnd then z.dstOffset else z.stdOffset

/-- pytz `localize(naive, is_dst=None)`: the unique consistent instant, or
an error on ambiguous (two consistent readings) or non-existent wall
times.  A reading `t` is consistent when the zone's offset at `t` maps `t`
back to the given wall time. -/
def PytzZone.localizeStrict (z : PytzZone) (naive : Int) : Except Unit Int :=
  let td := naive - z.dstOffset
  let ts := naive - z.stdOffset
  let vd := z.offsetAt td = z.dstOffset
  let vs := z.offsetAt ts = z.stdOffset
  if vd ∧ vs ∧ td ≠ ts then .error ()
  else if vd then .ok td
  else if vs then .ok ts
  else .error ()

/-- pytz `localize(naive, is_dst=True)`: prefer the DST reading. -/
def PytzZone.localizeTrue (z : PytzZone) (naive : Int) : Int :=
  let td := naive - z.dstOffset
  let ts := naive - z.stdOffset
  if z.offsetAt td = z.dstOffset then td
  else if z.offsetAt ts = z.stdOffset then ts
  else td

/-- Model of `pytz.utc`: zero offsets, no DST interval. -/
def utcPytz : PytzZone := ⟨0, 0, 0, 0⟩

/-- A timezone object as returned by `resolve_timezone`: either a pytz
zone (which has a `localize` attribute) or a dateutil/zoneinfo zone
(no `localize`; only a wall-time-indexed utc offset). -/
inductive TZObj : Type where
  | pytzZone (z : PytzZone)
  | duZone (offAt : Int → Int)

/-- The zone object for `pytz.utc`. -/
def utcTZ : TZObj := .pytzZone utcPytz

/-- A timezone-aware datetime: an absolute instant plus the attached zone. -/
structure AwareDT where
  instant : Int
  zone : TZObj

/-- Embedding of `attach_timezone`: pytz zones go through
`localize(..., is_dst=None)` and fall back to `is_dst=True` on an
exception; non-pytz zones get `replace(tzinfo=...)`, i.e. the wall time is
interpreted with the zone's offset at that wall time. -/
def attach_timezone (tzobj : TZObj) (naive_dt : Int) : AwareDT :=
  match tzobj with
  | .pytzZone z =>
    match z.localizeStrict naive_dt with
    | .ok t => ⟨t, tzobj⟩
    | .error _ => ⟨z.localizeTrue naive_dt, tzobj⟩
  | .duZone offAt => ⟨naive_dt - offAt naive_dt, tzobj⟩

/-- Model of `dt.astimezone(pytz.utc)`: same instant, zone replaced by utc. -/
def astimezoneUtc (d : AwareDT) : AwareDT := ⟨d.instant, utcTZ⟩

/-- The external zone environment: the system zone reported by `tzlocal`,
which names `pytz.timezone` accepts, the pytz zone objects, and the same
for `dateutil.tz.gettz`. -/
structure TZEnv where
  localZoneName : String
  pytzKnown : String → Bool
  pytzZoneOf : String → PytzZone
  duKnown : String → Bool
  duOffsetOf : String → Int → Int

/-- The warning string built by `resolve_timezone` on fallback to UTC. -/
def mkTzWarning (tz_str_raw : String) (event_title : Option String) : String :=
  let event_desc := match event_title with
    | some t => if t = "" then "event" else "\x27" ++ t ++ "\x27"
    | none => "event"
  "Couldn\x27t resolve timezone \x27" ++ tz_str_raw ++ "\x27 for " ++ event_desc ++
    " - using UTC. Please verify the time in your calendar."

/-- Embedding of `resolve_timezone` from
`src/eventcalendar/core/timezone_utils.py`.  `tz_str = none` models a
Python `None` argument; `tz_str or "local"` maps both `None` and the empty
string to `"local"`. -/
def resolve_timezone (env : TZEnv) (tz_str : Option String)
    (event_title : Option String) : TZObj × Option String :=
  let tz_str_raw := match tz_str with
    | none => "local"
    | some s => if s = "" then "local" else s
  let tz_upper := upperStr tz_str_raw
  let tz_name := if tz_upper = "LOCAL" then env.localZoneName
    else (lookupPair ABBR_TO_TZ tz_upper).getD tz_str_raw
  if env.pytzKnown tz_name then (.pytzZone (env.pytzZoneOf tz_name), none)
  else if env.duKnown tz_name then (.duZone (env.duOffsetOf tz_name), none)
  else (.pytzZone utcPytz, some (mkTzWarning tz_str_raw event_title))

/-! ## Time-string normalization (`normalize_time_string`)

A hand-rolled, backtracking-faithful model of the three regular
expressions of `normalize_time_string`. -/

def isDigitCh (c : Char) : Bool := '0' ≤ c && c ≤ '9'

/-- Python `\s` on ASCII. -/
def isSpaceCh (c : Char) : Bool :=
  c = ' ' || c = '\t' || c = '\n' || c = '\r' || c = '\x0b' || c = '\x0c'

/-- Python's `str.strip()`. -/
def stripCh (l : List Char) : List Char :=
  ((l.dropWhile isSpaceCh).reverse.dropWhile isSpaceCh).reverse

def dropSp (l : List Char) : List Char := l.dropWhile isSpaceCh

/-- Regex `^\d{1,2}\.\d{2}$` (the European `20.00` form). -/
def matchR1 : List Char → Bool
  | [a, '.', b, c] => isDigitCh a && isDigitCh b && isDigitCh c
  | [a, b, '.', c, d] => isDigitCh a && isDigitCh b && isDigitCh c && isDigitCh d
  | _ => false

def digitsToNat (l : List Char) : Nat :=
  l.foldl (fun acc c => acc * 10 + (c.toNat - '0'.toNat)) 0

/-- Regex `\s*$`. -/
def matchEnd (l : List Char) : Bool := (dropSp l).isEmpty

/-- Regex `\.?\s*$`. -/
def afterDot (l : List Char) : Bool :=
  match l with
  | '.' :: r => matchEnd r
  | _ => matchEnd l

/-- Regex `(?:rs?)?\.?\s*$` with the regex engine's greedy backtracking. -/
def afterR (l : List Char) : Bool :=
  match l with
  | c :: r =>
    if charLower c = 'r' then
      (match r with
       | c2 :: r2 => if charLower c2 = 's' then afterDot r2 || afterDot r else afterDot r
       | [] => afterDot r) || afterDot l
    else afterDot l
  | [] => afterDot l

/-- Regex `\s*h(?:rs?)?\.?\s*$` (case-insensitive `h`). -/
def tailH (l : List Char) : Bool :=
  match dropSp l with
  | c :: r => charLower c = 'h' && afterR r
  | [] => false

/-- Split off exactly `n` leading characters. -/
def splitN : Nat → List Char → Option (List Char × List Char)
  | 0, l => some ([], l)
  | _ + 1, [] => none
  | n + 1, c :: r => (splitN n r).map (fun p => (c :: p.1, p.2))

/-- The minute part `(?:[:\.]?(\d{2}))?` followed by the `h` tail, with
greedy alternatives in regex order: separator + two digits, two digits,
absent. -/
def minuteAlt (rest : List Char) : Option (Option (List Char)) :=
  let altA := match rest with
    | s :: d1 :: d2 :: r =>
      if (s = ':' || s = '.') && isDigitCh d1 && isDigitCh d2 && tailH r then
        some (some [d1, d2])
      else none
    | _ => none
  match altA with
  | some m => some m
  | none =>
    let altB := match rest with
      | d1 :: d2 :: r =>
        if isDigitCh d1 && isDigitCh d2 && tailH r then some (some [d1, d2]) else none
      | _ => none
    match altB with
    | some m => some m
    | none => if tailH rest then some none else none

/-- Regex `^\s*(\d{1,2})(?:[:\.]?(\d{2}))?\s*h(?:rs?)?\.?\s*$` (case-insensitive),
returning (hour, optional minute digits).  Hour is matched greedily: two
digits first, then one. -/
def matchHourStyle (l : List Char) : Option (Nat × Option (List Char)) :=
  let l1 := dropSp l
  let try2 := match splitN 2 l1 with
    | some (hd, rest) =>
      if hd.all isDigitCh then (minuteAlt rest).map (fun m => (digitsToNat hd, m))
      else none
    | none => none
  match try2 with
  | some r => some r
  | none =>
    match splitN 1 l1 with
    | some (hd, rest) =>
      if hd.all isDigitCh then (minuteAlt rest).map (fun m => (digitsToNat hd, m))
      else none
    | none => none

/-- Regex `^\s*(\d{1,2})h(\d{2})\s*$` (case-insensitive). -/
def matchHourStyle2 (l : List Char) : Option (Nat × List Char) :=
  let l1 := dropSp l
  let try2 := match l1 with
    | a :: b :: c :: d1 :: d2 :: r =>
      if isDigitCh a && isDigitCh b && charLower c = 'h' && isDigitCh d1 && isDigitCh d2
          && matchEnd r then
        some (digitsToNat [a, b], [d1, d2])
      else none
    | _ => none
  match try2 with
  | some r => some r
  | none =>
    match l1 with
    | a :: c :: d1 :: d2 :: r =>
      if isDigitCh a && charLower c = 'h' && isDigitCh d1 && isDigitCh d2
          && matchEnd r then
        some (digitsToNat [a], [d1, d2])
      else none
    | _ => none

/-- Python `f"{hour:02d}"`. -/
def pad2 (n : Nat) : String := if n < 10 then "0" ++ toString n else toString n

/-- Embedding of `normalize_time_string` from
`src/eventcalendar/core/timezone_utils.py` (string inputs). -/
def normalize_time_string (time_str : String) : String :=
  let s0 := stripCh time_str.data
  let s1 := if matchR1 s0 then s0.map (fun c => if c = '.' then ':' else c) else s0
  match matchHourStyle s1 with
  | some (h, m) => pad2 h ++ ":" ++ (⟨(m.getD ['0', '0'])⟩ : String)
  | none =>
    match matchHourStyle2 s1 with
    | some (h, m) => pad2 h ++ ":" ++ (⟨m⟩ : String)
    | none => ⟨s1⟩

/-- Wrapper: `normalize_time_string` as it is fed from an event dict value: a Python
`None` value goes through `str(...)` first (the non-`str` branch of the
source). -/
def normalize_time_py (v : Option String) : String :=
  match v with
  | none => "None"
  | some s => normalize_time_string s

/-! ## Calendar object model (the icalendar `Calendar`/`Event` values)

A component is a name, an ordered property map and nested subcomponents,
mirroring the icalendar `Component` objects that `ics_builder.py`
manipulates.  Property values are either text, a timezone-aware datetime,
or a duration (the VALARM trigger). -/

/-- A property value of an icalendar component. -/
inductive VPropVal : Type where
  | text (s : String)
  | dt (d : AwareDT)
  | dur (minutes : Int)

/-- An icalendar component (VEVENT, VALARM, VTIMEZONE, ...). -/
inductive VComponent : Type where
  | mk : String → List (String × VPropVal) → List VComponent → VComponent

def VComponent.name : VComponent → String
  | .mk n _ _ => n

def VComponent.props : VComponent → List (String × VPropVal)
  | .mk _ p _ => p

def VComponent.subs : VComponent → List VComponent
  | .mk _ _ s => s

/-- First-match property lookup (`component.get(key)`). -/
def lookupVal (l : List (String × VPropVal)) (k : String) : Option VPropVal :=
  (l.find? (fun p => p.1 == k)).map (fun p => p.2)

/-- Model of `component.get(key)`. -/
def getProp (c : VComponent) (key : String) : Option VPropVal :=
  lookupVal c.props key

/-- Replace the (first) binding of `key`, or append it: the model of
`component[key] = v` on icalendar's insertion-ordered dict. -/
def setPropList : List (String × VPropVal) → String → VPropVal → List (String × VPropVal)
  | [], key, v => [(key, v)]
  | (k, w) :: rest, key, v =>
    if k == key then (key, v) :: rest else (k, w) :: setPropList rest key v

/-- Model of `component[key] = v`. -/
def setProp (c : VComponent) (key : String) (v : VPropVal) : VComponent :=
  .mk c.name (setPropList c.props key v) c.subs

/-- A VCALENDAR: top-level properties plus subcomponents. -/
structure VCalendar where
  props : List (String × VPropVal)
  subcomponents : List VComponent

/-- Model of `cal.add_component(c)`. -/
def addComponent (cal : VCalendar) (c : VComponent) : VCalendar :=
  ⟨cal.props, cal.subcomponents ++ [c]⟩

theorem getProp_setProp (c : VComponent) (key : String) (v : VPropVal) :
    getProp (setProp c key v) key = some v := by
  show lookupVal (setPropList c.props key v) key = some v
  induction c.props with
  | nil => simp [setPropList, lookupVal, List.find?]
  | cons p rest ih =>
    by_cases h : p.1 = key
    · simp [setPropList, h, lookupVal, List.find?]
    · simpa [setPropList, h, lookupVal, List.find?] using ih

theorem name_setProp (c : VComponent) (key : String) (v : VPropVal) :
    (setProp c key v).name = c.name := rfl

/-! ## Event dicts and the ICS builder (`src/eventcalendar/core/ics_builder.py`)

An event dict is an ordered map from string keys to Python values that
are either a string or `None` (the shapes the LLM's JSON can put in the
required fields). -/

abbrev EventDict : Type := List (String × Option String)

/-- Model of `event_dict.get(k)` distinguishing a missing key (`none`) from a key
bound to Python `None` (`some none`). -/
def edGet (ed : EventDict) (k : String) : Option (Option String) :=
  ((List.find? (fun p => p.1 == k)) ed).map (fun p => p.2)

/-- Embedding of `REQUIRED_EVENT_FIELDS` (a `set` in the source; the fixed list order here
only fixes the rendering order of warning messages). -/
def REQUIRED_EVENT_FIELDS : List String :=
  ["uid", "title", "start_time", "end_time", "date", "timezone"]

/-- Python's `f"{...}"` rendering of the missing-fields set, with the set
iterated in `REQUIRED_EVENT_FIELDS` order. -/
def quoteJoin : List String → String
  | [] => ""
  | [k] => "\x27" ++ k ++ "\x27"
  | k :: rest => "\x27" ++ k ++ "\x27, " ++ quoteJoin rest

def renderFieldSet (l : List String) : String := "\x7b" ++ quoteJoin l ++ "\x7d"

/-- The `event_dict.get('title', f'Event {index+1}')` placeholder used in
the validation warning; a key bound to `None` renders as `"None"` inside
the f-string. -/
def validationTitle (ed : EventDict) (index : Nat) : String :=
  match edGet ed "title" with
  | none => "Event " ++ toString (index + 1)
  | some none => "None"
  | some (some t) => t

/-- Embedding of `_validate_event_fields`: the check is
`REQUIRED_EVENT_FIELDS - set(event_dict.keys())`, i.e. key presence only. -/
def validate_event_fields (ed : EventDict) (index : Nat) : Option String :=
  let missing := REQUIRED_EVENT_FIELDS.filter (fun k => (edGet ed k).isNone)
  if missing.isEmpty then none
  else some ("Skipping \x27" ++ validationTitle ed index ++
    "\x27 - missing required fields: " ++ renderFieldSet missing)

/-- The date/time parsing result of `_parse_event_datetime`. -/
structure DateTimeResult where
  start_utc : AwareDT
  end_utc : AwareDT
  warning : Option String

/-- The external environment of the builder: the dateutil parser (dates as
day numbers, times as minutes of the day), the zone environment, the
current UTC instant used for DTSTAMP, and the `uuid.uuid4()` value used
when the record has no usable uid. -/
structure BuildEnv where
  tz : TZEnv
  parseDateDays : String → Option Int
  parseTimeMinutes : String → Option Int
  nowUtcMin : Int
  freshUuid : String

/-- The `event_dict.get("timezone", "local") or "local"` expression of
`_parse_event_datetime`. -/
def tz_str_of (ed : EventDict) : String :=
  match edGet ed "timezone" with
  | none => "local"
  | some none => "local"
  | some (some s) => if s = "" then "local" else s

/-- Expression `event_dict.get("title")` as passed to `resolve_timezone` (a missing
key and a `None` value both arrive as Python `None`). -/
def titleOpt (ed : EventDict) : Option String :=
  match edGet ed "title" with
  | some (some t) => some t
  | _ => none

/-- Embedding of `_parse_event_datetime`.  An `Except.error` models the
exception that the caller catches (`KeyError` on a missing key, a dateutil
parse error, or `parser.parse` applied to a non-string).  Naive datetimes
are `days * 1440 + minutes`. -/
def parse_event_datetime (env : BuildEnv) (ed : EventDict) : Except Unit DateTimeResult :=
  match edGet ed "date" with
  | none => .error ()
  | some dateVal =>
    match dateVal with
    | none => .error ()
    | some dateStr =>
      match env.parseDateDays dateStr with
      | none => .error ()
      | some event_date =>
        match edGet ed "start_time" with
        | none => .error ()
        | some stVal =>
          match edGet ed "end_time" with
          | none => .error ()
          | some etVal =>
            let start_time_str := normalize_time_py stVal
            let end_time_str := normalize_time_py etVal
            let tz_str := tz_str_of ed
            let r := resolve_timezone env.tz (some tz_str) (titleOpt ed)
            match env.parseTimeMinutes start_time_str with
            | none => .error ()
            | some start_time =>
              match env.parseTimeMinutes end_time_str with
              | none => .error ()
              | some end_time =>
                let start_dt_naive := event_date * 1440 + start_time
                let end_dt_naive := event_date * 1440 + end_time
                let start_dt := attach_timezone r.1 start_dt_naive
                let end_dt := attach_timezone r.1 end_dt_naive
                .ok ⟨astimezoneUtc start_dt, astimezoneUtc end_dt, r.2⟩

/-- Embedding of `_create_ics_calendar`. -/
def create_ics_calendar : VCalendar :=
  ⟨[("PRODID", .text ICS_PRODID), ("VERSION", .text "2.0")], []⟩

/-- The `event_dict.get("uid") or str(uuid.uuid4())` expression: a missing
key, a `None` value and an empty string all fall back to a fresh uuid. -/
def uidOf (env : BuildEnv) (ed : EventDict) : String :=
  match edGet ed "uid" with
  | some (some u) => if u = "" then env.freshUuid else u
  | _ => env.freshUuid

/-- Expression `str(event_dict.get("title", DEFAULT_EVENT_TITLE))`. -/
def summaryOf (ed : EventDict) : String :=
  match edGet ed "title" with
  | none => DEFAULT_EVENT_TITLE
  | some none => "None"
  | some (some t) => t

/-- Embedding of `_create_ics_event`: UID, DTSTAMP (current UTC time),
DTSTART/DTEND from the parsed result, SUMMARY, optional LOCATION and
DESCRIPTION (added only when truthy), and the fixed VALARM. -/
def create_ics_event (env : BuildEnv) (ed : EventDict) (dtr : DateTimeResult) : VComponent :=
  let base : List (String × VPropVal) :=
    [("UID", .text (uidOf env ed)),
     ("DTSTAMP", .dt ⟨env.nowUtcMin, utcTZ⟩),
     ("DTSTART", .dt dtr.start_utc),
     ("DTEND", .dt dtr.end_utc),
     ("SUMMARY", .text (summaryOf ed))]
  let withLoc := match edGet ed "location" with
    | some (some l) => if l = "" then base else base ++ [("LOCATION", .text l)]
    | _ => base
  let withDesc := match edGet ed "description" with
    | some (some d) => if d = "" then withLoc else withLoc ++ [("DESCRIPTION", .text d)]
    | _ => withLoc
  .mk "VEVENT" withDesc
    [.mk "VALARM"
      [("ACTION", .text "DISPLAY"), ("DESCRIPTION", .text "Reminder"),
       ("TRIGGER", .dur DEFAULT_REMINDER_MINUTES)] []]

/-- Result of `_build_single_event_ics`; the formatted ICS text is kept at
the component level (CRLF serialization is byte-level icalendar output). -/
structure ICSBuildResult where
  success : Bool
  ics_content : Option VCalendar
  warning : Option String

/-- The warning produced when the outer `except` of
`_build_single_event_ics` catches a date/time parsing exception (the
`{e}` detail of the underlying library exception is abstracted). -/
def buildErrorMsg (ed : EventDict) (index : Nat) : String :=
  let event_title := match edGet ed "title" with
    | none => "Unknown Title"
    | some none => "None"
    | some (some t) => t
  "Error building ICS for event " ++ toString (index + 1) ++ " (" ++ event_title ++
    "): date/time parsing error"

/-- Embedding of `_build_single_event_ics`. -/
def build_single_event_ics (env : BuildEnv) (ed : EventDict) (index : Nat) : ICSBuildResult :=
  match validate_event_fields ed index with
  | some w => ⟨false, none, some w⟩
  | none =>
    match parse_event_datetime env ed with
    | .error _ => ⟨false, none, some (buildErrorMsg ed index)⟩
    | .ok dtr =>
      let cal := addComponent create_ics_calendar (create_ics_event env ed dtr)
      ⟨true, some cal, dtr.warning⟩

/-! ## RFC5545 TEXT escaping (model of the icalendar library's `vText`)

`_create_ics_event` stores DESCRIPTION via `vText(...)`; on serialization
(`_format_ics_output` → `cal.to_ical()`) the icalendar library escapes
backslash, semicolon, comma and newline, and its parser reverses the
escaping.  Both directions are modelled here character by character. -/

/-- icalendar `vText.to_ical` escaping: `\` first, then `;`, `,`, `\r\n`
and `\n` all become backslash escapes. -/
def icsEscapeChars : List Char → List Char
  | [] => []
  | '\\' :: r => '\\' :: '\\' :: icsEscapeChars r
  | ';' :: r => '\\' :: ';' :: icsEscapeChars r
  | ',' :: r => '\\' :: ',' :: icsEscapeChars r
  | '\r' :: '\n' :: r => '\\' :: 'n' :: icsEscapeChars r
  | '\n' :: r => '\\' :: 'n' :: icsEscapeChars r
  | c :: r => c :: icsEscapeChars r

def icsEscapeText (s : String) : String := ⟨icsEscapeChars s.data⟩

/-- icalendar `vText.from_ical` unescaping. -/
def icsUnescapeChars : List Char → List Char
  | [] => []
  | '\\' :: '\\' :: r => '\\' :: icsUnescapeChars r
  | '\\' :: ';' :: r => ';' :: icsUnescapeChars r
  | '\\' :: ',' :: r => ',' :: icsUnescapeChars r
  | '\\' :: 'n' :: r => '\n' :: icsUnescapeChars r
  | '\\' :: 'N' :: r => '\n' :: icsUnescapeChars r
  | c :: r => c :: icsUnescapeChars r

def icsUnescapeText (s : String) : String := ⟨icsUnescapeChars s.data⟩

/-- The serialized content line the builder emits for a DESCRIPTION
property, as `_format_ics_output` writes it. -/
def descriptionLineOf (r : ICSBuildResult) : Option String :=
  match r.ics_content with
  | some cal =>
    match cal.subcomponents with
    | [ve] =>
      match getProp ve "DESCRIPTION" with
      | some (.text d) => some ("DESCRIPTION:" ++ icsEscapeText d)
      | _ => none
    | _ => none
  | none => none

/-- Re-parsing a serialized DESCRIPTION content line. -/
def parseDescriptionLine (line : String) : Option String :=
  if leadsWith "DESCRIPTION:".data line.data then
    some (icsUnescapeText ⟨line.data.drop ("DESCRIPTION:".length)⟩)
  else none

/-! ## Calendar merging (`combine_ics_strings` and helpers)

An input payload is `none` for a Python `None` entry (skipped by
`_parse_ics_strings`), `some (.error msg)` for a document on which
`Calendar.from_ical` raises with message `msg`, and `some (.ok cal)` for a
document that parses to `cal`.  The fresh per-merge UIDs produced by
`uuid.uuid4()` are a supply `fresh : Nat → String` consumed in VEVENT
order. -/

abbrev ICSPayload : Type := Option (Except String VCalendar)

/-- Embedding of the loop of `_parse_ics_strings`, with the running
`enumerate` index used in the error message. -/
def parseIcsGo : Nat → List ICSPayload → Except String (List VCalendar)
  | _, [] => .ok []
  | idx, none :: rest => parseIcsGo (idx + 1) rest
  | idx, some (.error exc) :: rest =>
    (fun _ => .error ("Failed to parse ICS payload at index " ++ toString idx ++ ": " ++ exc))
      (parseIcsGo (idx + 1) rest)
  | idx, some (.ok c) :: rest =>
    match parseIcsGo (idx + 1) rest with
    | .ok cs => .ok (c :: cs)
    | .error e => .error e

/-- Embedding of `_parse_ics_strings`. -/
def parse_ics_strings (docs : List ICSPayload) : Except String (List VCalendar) :=
  parseIcsGo 0 docs

/-! Model of icalendar's `Component.property_items()` (the default
`recursive=True` call that `_create_merged_calendar` makes): a `BEGIN`
marker carrying the component name, the component's own properties, the
items of every subcomponent recursively, and an `END` marker.  The
library's default `sorted=True` permutes only the keys *within* one
component (against a canonical order); since property names are unique
inside a component, that permutation never changes which value the
first-wins copy loop below assigns to a name, so the model keeps each
component's stored key order. -/
mutual

/-- Recursive property items of one component. -/
def componentPropertyItems : VComponent → List (String × VPropVal)
  | .mk name props subs =>
    ("BEGIN", .text name) :: (props ++ componentListPropertyItems subs ++ [("END", .text name)])

/-- Property items of a list of subcomponents, in order. -/
def componentListPropertyItems : List VComponent → List (String × VPropVal)
  | [] => []
  | c :: rest => componentPropertyItems c ++ componentListPropertyItems rest

end

/-- Items of `calendar.property_items()` for a whole parsed VCALENDAR. -/
def calendarPropertyItems (cal : VCalendar) : List (String × VPropVal) :=
  ("BEGIN", .text "VCALENDAR") ::
    (cal.props ++ componentListPropertyItems cal.subcomponents ++
      [("END", .text "VCALENDAR")])

/-- The inner loop of `_create_merged_calendar`: add each item whose
property name is not yet present (first occurrence wins). -/
def copyPropsFrom (acc : List (String × VPropVal)) (ps : List (String × VPropVal)) :
    List (String × VPropVal) :=
  ps.foldl (fun acc p => if (lookupVal acc p.1).isNone then acc ++ [p] else acc) acc

def ensureProp (ps : List (String × VPropVal)) (k : String) (v : VPropVal) :
    List (String × VPropVal) :=
  if (lookupVal ps k).isNone then ps ++ [(k, v)] else ps

/-- Embedding of `_create_merged_calendar`: copy, from every source
calendar's recursive `property_items()` stream, each item whose name is
not already present — this drags the `BEGIN`/`END` markers and the first
source VEVENT's own properties (its UID included) into the merged
calendar's top level — then default PRODID/VERSION/CALSCALE. -/
def create_merged_calendar (cals : List VCalendar) : VCalendar :=
  let props := cals.foldl (fun acc cal => copyPropsFrom acc (calendarPropertyItems cal)) []
  let props := ensureProp props "PRODID" (.text ICS_PRODID)
  let props := ensureProp props "VERSION" (.text "2.0")
  let props := ensureProp props "CALSCALE" (.text "GREGORIAN")
  ⟨props, []⟩

/-- The mutable state of `_add_components_to_merged`: components added so
far, the `seen_timezones` set (as a duplicate-free list, whose length is
the set's size), and how many fresh UIDs have been consumed. -/
structure MergeState where
  comps : List VComponent
  seenTz : List String
  uidCount : Nat

/-- One iteration of the component loop of `_add_components_to_merged`. -/
def processComponent (fresh : Nat → String) (st : MergeState) (c : VComponent) :
    MergeState :=
  if c.name = "VTIMEZONE" then
    let tzid := match getProp c "TZID" with
      | some (.text t) => if t = "" then "__anon_tz_" ++ toString st.seenTz.length else t
      | _ => "__anon_tz_" ++ toString st.seenTz.length
    if tzid ∈ st.seenTz then st
    else ⟨st.comps ++ [c], st.seenTz ++ [tzid], st.uidCount⟩
  else if c.name = "VEVENT" then
    ⟨st.comps ++ [setProp c "UID" (.text (fresh st.uidCount ++ "@nl-calendar"))],
     st.seenTz, st.uidCount + 1⟩
  else ⟨st.comps ++ [c], st.seenTz, st.uidCount⟩

/-- Embedding of `_add_components_to_merged` (both nested loops). -/
def add_components_to_merged (fresh : Nat → String) (cals : List VCalendar) : MergeState :=
  ((cals.map VCalendar.subcomponents).flatten).foldl (processComponent fresh) ⟨[], [], 0⟩

/-- The merged calendar produced by `combine_ics_strings` once parsing
succeeded. -/
def mergeParsedCalendars (fresh : Nat → String) (cals : List VCalendar) : VCalendar :=
  ⟨(create_merged_calendar cals).props, (add_components_to_merged fresh cals).comps⟩

/-- Embedding of `combine_ics_strings` (the merged document is kept at the
calendar-object level; `_format_ics_output` only serializes it). -/
def combine_ics_strings (fresh : Nat → String) (docs : List ICSPayload) :
    Except String VCalendar :=
  if docs.isEmpty then .error "No ICS data provided to combine."
  else
    match parse_ics_strings docs with
    | .error e => .error e
    | .ok calendars =>
      if calendars.isEmpty then .error "No parseable ICS data provided."
      else .ok (mergeParsedCalendars fresh calendars)

/-- The UIDs of the VEVENTs of the source documents. -/
def sourceEventUids (cals : List VCalendar) : List String :=
  ((cals.map VCalendar.subcomponents).flatten).foldr
    (fun c acc =>
      if c.name = "VEVENT" then
        match getProp c "UID" with
        | some (.text u) => u :: acc
        | _ => acc
      else acc) []

/-! ## Shared helper lemmas -/

/-- A string containing a non-empty pattern is itself non-empty. -/
theorem string_ne_empty_of_contains (w pat : String) (hpat : pat ≠ "")
    (h : strContains w pat = true) : w ≠ "" := by
  intro hw
  subst hw
  apply hpat
  cases pat with
  | mk d =>
    cases d with
    | nil => rfl
    | cons c cs => simp [strContains, containsSub, List.isEmpty] at h

/-! ## Claims about the retry classifier -/

/-- Claim C8: for every exception whose (lower-cased) message contains
"invalid api key", `is_retryable_error` returns `false` (Terminal), even
when the message also contains a retryable substring such as "timeout":
the non-retryable pattern check runs before the retryable one. -/
theorem c8_invalid_api_key_is_terminal (e : PyError)
    (h : strContains (lowerStr e.message) "invalid api key" = true) :
    is_retryable_error e = false := by
  unfold is_retryable_error
  cases hcls : e.cls.isCalendarAPIError with
  | true => simp
  | false =>
    have hany : NON_RETRYABLE_ERROR_PATTERNS.any
        (fun p => strContains (lowerStr e.message) p ||
          strContains (lowerStr e.cls.pyTypeName) p) = true := by
      refine List.any_eq_true.mpr ⟨"invalid api key", ?_, ?_⟩
      · simp [NON_RETRYABLE_ERROR_PATTERNS]
      · simp [h]
    simp [hany]

/-- Witness for C8 at a concrete exception whose message holds both
"invalid api key" and "timeout". -/
theorem c8_witness :
    strContains (lowerStr "Request failed: Invalid API key (timeout while validating)")
      "invalid api key" = true ∧
    strContains (lowerStr "Request failed: Invalid API key (timeout while validating)")
      "timeout" = true ∧
    is_retryable_error
      ⟨.generic "Exception", "Request failed: Invalid API key (timeout while validating)",
       none⟩ = false :=
  ⟨by decide, by decide,
   c8_invalid_api_key_is_terminal
     ⟨.generic "Exception", "Request failed: Invalid API key (timeout while validating)",
      none⟩ (by decide)⟩

/-- Claim C3, counterexample: an `APIResponseError` carrying the
malformed/empty-response message is classified non-retryable by
`is_retryable_error` (it is a `CalendarAPIError` subclass, and the
classifier rejects every `CalendarAPIError` up front), contradicting the
claim that it is classified retryable. -/
theorem c3_counterexample :
    is_retryable_error
      ⟨.apiResponseError, "Received empty response from API", none⟩ = false := by
  rfl

/-- Claim C3, amended: `APIResponseError` (a `CalendarAPIError` subclass)
is always classified non-retryable, whatever its message or cause; the
malformed/empty LLM response conditions are actually raised as plain
`ValueError`s, and those are classified retryable (by the
unknown-errors-retry default). -/
theorem c3_amended_classification :
    (∀ (msg : String) (cause : Option (String × String)),
      is_retryable_error ⟨.apiResponseError, msg, cause⟩ = false) ∧
    is_retryable_error
      ⟨.generic "ValueError", "Received empty response from API", none⟩ = true ∧
    is_retryable_error
      ⟨.generic "ValueError",
       "LLM returned invalid JSON: Expecting value: line 1 column 1 (char 0)",
       some ("Expecting value: line 1 column 1 (char 0)", "JSONDecodeError")⟩ = true := by
  refine ⟨fun msg cause => rfl, by decide, by decide⟩

/-! ## Claims about timezone resolution -/

/-- Claim C5: a hint that is not in the abbreviation table (under
upper-casing), is not the literal "local", and is not known to pytz or
dateutil makes `resolve_timezone` return UTC together with a non-empty
warning that names the original hint and the event title; the function is
total (it returns a zone/warning pair for every hint rather than
throwing). -/
theorem c5_unresolvable_hint_yields_utc_and_warning (env : TZEnv) (hint : String)
    (title : Option String)
    (h0 : hint ≠ "")
    (h1 : upperStr hint ≠ "LOCAL")
    (h2 : lookupPair ABBR_TO_TZ (upperStr hint) = none)
    (h3 : env.pytzKnown hint = false)
    (h4 : env.duKnown hint = false) :
    resolve_timezone env (some hint) title =
      (.pytzZone utcPytz, some (mkTzWarning hint title)) ∧
    mkTzWarning hint title ≠ "" ∧
    strContains (mkTzWarning hint title) hint = true ∧
    (∀ t, title = some t → strContains (mkTzWarning hint title) t = true) := by
  have hcontains : strContains (mkTzWarning hint title) hint = true := by
    unfold mkTzWarning strContains
    simp only [string_data_append, List.append_assoc]
    exact containsSub_append_left _ _ _
      (containsSub_of_leadsWith _ _ (leadsWith_append _ _))
  refine ⟨?_, ?_, hcontains, ?_⟩
  · simp [resolve_timezone, h0, h1, h2, h3, h4]
  · exact string_ne_empty_of_contains _ _ h0 hcontains
  · intro t ht
    subst ht
    by_cases hte : t = ""
    · subst hte
      unfold strContains
      exact containsSub_nil _
    · unfold mkTzWarning strContains
      simp only [hte, if_neg, ite_false, string_data_append, List.append_assoc]
      apply containsSub_append_left
      apply containsSub_append_left
      apply containsSub_append_left
      apply containsSub_append_left
      exact containsSub_of_leadsWith _ _ (leadsWith_append _ _)

/-- Witness for C5 at the unresolvable hint "Mars/Olympus_Mons". -/
theorem c5_witness :
    ("Mars/Olympus_Mons" ≠ "" ∧ upperStr "Mars/Olympus_Mons" ≠ "LOCAL" ∧
      lookupPair ABBR_TO_TZ (upperStr "Mars/Olympus_Mons") = none) ∧
    (resolve_timezone
        ⟨"America/New_York", fun _ => false, fun _ => utcPytz, fun _ => false, fun _ _ => 0⟩
        (some "Mars/Olympus_Mons") (some "Launch Party") =
      (.pytzZone utcPytz,
       some (mkTzWarning "Mars/Olympus_Mons" (some "Launch Party"))) ∧
     mkTzWarning "Mars/Olympus_Mons" (some "Launch Party") ≠ "" ∧
     strContains (mkTzWarning "Mars/Olympus_Mons" (some "Launch Party"))
       "Mars/Olympus_Mons" = true ∧
     (∀ t, (some "Launch Party" : Option String) = some t →
       strContains (mkTzWarning "Mars/Olympus_Mons" (some "Launch Party")) t = true)) :=
  ⟨⟨by decide, by decide, by decide⟩,
   c5_unresolvable_hint_yields_utc_and_warning
     ⟨"America/New_York", fun _ => false, fun _ => utcPytz, fun _ => false, fun _ _ => 0⟩
     "Mars/Olympus_Mons" (some "Launch Party")
     (by decide) (by decide) (by decide) rfl rfl⟩

/-- Claim C10: an event dict whose "timezone" value is Python `None` or
the empty string feeds the literal "local" into `resolve_timezone`
(`event_dict.get("timezone", "local") or "local"`), which resolves to the
caller's system zone with no warning, provided the system zone name is a
real zone, exactly as the literal hint "local" would. -/
theorem c10_null_timezone_treated_as_local (env : TZEnv) (ed : EventDict)
    (t : Option String)
    (hval : edGet ed "timezone" = some none ∨ edGet ed "timezone" = some (some ""))
    (hlocal : env.pytzKnown env.localZoneName = true) :
    tz_str_of ed = "local" ∧
    resolve_timezone env (some (tz_str_of ed)) t =
      (.pytzZone (env.pytzZoneOf env.localZoneName), none) ∧
    resolve_timezone env (some (tz_str_of ed)) t =
      resolve_timezone env (some "local") t := by
  have htz : tz_str_of ed = "local" := by
    rcases hval with h | h <;> simp [tz_str_of, h]
  have hup : upperStr "local" = "LOCAL" := by decide
  have hres : resolve_timezone env (some "local") t =
      (.pytzZone (env.pytzZoneOf env.localZoneName), none) := by
    simp [resolve_timezone, hup, hlocal]
  exact ⟨htz, by rw [htz, hres], by rw [htz]⟩

/-- Witness for C10 at a concrete event dict with a null timezone value. -/
theorem c10_witness :
    ((edGet [("title", some "Brunch"), ("timezone", none)] "timezone" = some none ∨
      edGet [("title", some "Brunch"), ("timezone", none)] "timezone" = some (some "")) ∧
     (⟨"Europe/Berlin", fun n => n == "Europe/Berlin", fun _ => utcPytz,
       fun _ => false, fun _ _ => 0⟩ : TZEnv).pytzKnown "Europe/Berlin" = true) ∧
    (tz_str_of [("title", some "Brunch"), ("timezone", none)] = "local" ∧
     resolve_timezone
        ⟨"Europe/Berlin", fun n => n == "Europe/Berlin", fun _ => utcPytz,
         fun _ => false, fun _ _ => 0⟩
        (some (tz_str_of [("title", some "Brunch"), ("timezone", none)])) none =
       (.pytzZone utcPytz, none) ∧
     resolve_timezone
        ⟨"Europe/Berlin", fun n => n == "Europe/Berlin", fun _ => utcPytz,
         fun _ => false, fun _ _ => 0⟩
        (some (tz_str_of [("title", some "Brunch"), ("timezone", none)])) none =
       resolve_timezone
        ⟨"Europe/Berlin", fun n => n == "Europe/Berlin", fun _ => utcPytz,
         fun _ => false, fun _ _ => 0⟩ (some "local") none) :=
  ⟨⟨Or.inl (by decide), by decide⟩,
   c10_null_timezone_treated_as_local
     ⟨"Europe/Berlin", fun n => n == "Europe/Berlin", fun _ => utcPytz,
      fun _ => false, fun _ _ => 0⟩
     [("title", some "Brunch"), ("timezone", none)] none
     (Or.inl (by decide)) (by decide)⟩

/-! ## Claim about DST attachment -/

/-- Claim C7: for a DST-aware pytz zone (`stdOffset < dstOffset`, DST
period at least one transition-gap long) and a naive wall time in the
ambiguous fall-back window, `localize(..., is_dst=None)` raises, and
`attach_timezone` resolves the wall time to the DST-side reading
`naive - dstOffset`, which is the earlier of the two possible instants —
no exception escapes (`attach_timezone` is total). -/
theorem c7_ambiguous_time_resolves_to_earlier (z : PytzZone) (naive : Int)
    (hdst : z.stdOffset < z.dstOffset)
    (hspan : z.dstStart + (z.dstOffset - z.stdOffset) ≤ z.dstEnd)
    (hlo : z.dstEnd + z.stdOffset ≤ naive)
    (hhi : naive < z.dstEnd + z.dstOffset) :
    z.localizeStrict naive = .error () ∧
    attach_timezone (.pytzZone z) naive = ⟨naive - z.dstOffset, .pytzZone z⟩ ∧
    naive - z.dstOffset < naive - z.stdOffset := by
  have hvd : z.offsetAt (naive - z.dstOffset) = z.dstOffset := by
    unfold PytzZone.offsetAt
    rw [if_pos ⟨by omega, by omega⟩]
  have hvs : z.offsetAt (naive - z.stdOffset) = z.stdOffset := by
    unfold PytzZone.offsetAt
    rw [if_neg (by omega)]
  have hstrict : z.localizeStrict naive = .error () := by
    unfold PytzZone.localizeStrict
    simp only []
    rw [if_pos ⟨hvd, hvs, by omega⟩]
  have htrue : z.localizeTrue naive = naive - z.dstOffset := by
    unfold PytzZone.localizeTrue
    simp only []
    rw [if_pos hvd]
  refine ⟨hstrict, ?_, by omega⟩
  simp [attach_timezone, hstrict, htrue]

/-- Witness for C7: the one-hour fall-back window of a zone with standard
offset 0 and DST offset 60 ending at instant 100000. -/
theorem c7_witness :
    ((0 : Int) < 60 ∧ (0 : Int) + (60 - 0) ≤ 100000 ∧
     (100000 : Int) + 0 ≤ 100030 ∧ (100030 : Int) < 100000 + 60) ∧
    (PytzZone.localizeStrict ⟨0, 60, 0, 100000⟩ 100030 = .error () ∧
     attach_timezone (.pytzZone ⟨0, 60, 0, 100000⟩) 100030 =
       ⟨100030 - 60, .pytzZone ⟨0, 60, 0, 100000⟩⟩ ∧
     (100030 : Int) - 60 < 100030 - 0) :=
  ⟨⟨by decide, by decide, by decide, by decide⟩,
   c7_ambiguous_time_resolves_to_earlier ⟨0, 60, 0, 100000⟩ 100030
     (by decide) (by decide) (by decide) (by decide)⟩

/-! ## Claims about event validation -/

/-- Every member of a list is contained in its quoted rendering. -/
theorem quoteJoin_contains (l : List String) (k : String) (h : k ∈ l) :
    containsSub (quoteJoin l).data k.data = true := by
  induction l with
  | nil => cases h
  | cons a rest ih =>
    cases rest with
    | nil =>
      have hk : k = a := by simpa using h
      subst hk
      show containsSub ("\x27" ++ k ++ "\x27").data k.data = true
      simp only [string_data_append]
      exact containsSub_append_middle _ _ _
    | cons b r =>
      rcases List.mem_cons.mp h with hk | hk
      · subst hk
        show containsSub ("\x27" ++ k ++ "\x27, " ++ quoteJoin (b :: r)).data k.data = true
        simp only [string_data_append, List.append_assoc]
        exact containsSub_append_left _ _ _
          (containsSub_of_leadsWith _ _ (leadsWith_append _ _))
      · show containsSub ("\x27" ++ a ++ "\x27, " ++ quoteJoin (b :: r)).data k.data = true
        simp only [string_data_append, List.append_assoc]
        exact containsSub_append_left _ _ _ (containsSub_append_left _ _ _
          (containsSub_append_left _ _ _ (ih hk)))

/-- Claim C6, counterexample: an event dict in which all six required keys
are present but "uid" and "timezone" are bound to Python `None` passes
`_validate_event_fields` (which only subtracts key sets), contradicting
the claim that a null required field is reported as a validation failure;
moreover the null uid is silently replaced by a generated UUID during
event creation. -/
theorem c6_counterexample :
    validate_event_fields
      [("uid", none), ("title", some "Team Sync"), ("start_time", some "7:30 PM"),
       ("end_time", some "9:00 PM"), ("date", some "2024-08-15"), ("timezone", none)]
      0 = none ∧
    edGet
      [("uid", none), ("title", some "Team Sync"), ("start_time", some "7:30 PM"),
       ("end_time", some "9:00 PM"), ("date", some "2024-08-15"), ("timezone", none)]
      "uid" = some none ∧
    (∀ env : BuildEnv,
      uidOf env
        [("uid", none), ("title", some "Team Sync"), ("start_time", some "7:30 PM"),
         ("end_time", some "9:00 PM"), ("date", some "2024-08-15"), ("timezone", none)]
        = env.freshUuid) :=
  ⟨by decide, by decide, fun env => rfl⟩

/-- Claim C6, amended: validation requires only the presence of the six
required keys.  When every key is present (null values included) it
passes; when some key is missing it fails with a warning carrying the
possibly-placeholder title and every missing key name, and the event is
skipped (`_build_single_event_ics` returns failure with that warning). -/
theorem c6_amended_validation_checks_keys (ed : EventDict) (index : Nat) :
    ((∀ k ∈ REQUIRED_EVENT_FIELDS, edGet ed k ≠ none) →
      validate_event_fields ed index = none) ∧
    ((∃ k ∈ REQUIRED_EVENT_FIELDS, edGet ed k = none) →
      ∃ w, validate_event_fields ed index = some w ∧
        strContains w (validationTitle ed index) = true ∧
        (∀ k ∈ REQUIRED_EVENT_FIELDS, edGet ed k = none → strContains w k = true)) ∧
    (∀ w, validate_event_fields ed index = some w →
      ∀ env : BuildEnv, build_single_event_ics env ed index = ⟨false, none, some w⟩) := by
  refine ⟨?_, ?_, ?_⟩
  · intro hall
    have hmiss : (REQUIRED_EVENT_FIELDS.filter (fun k => (edGet ed k).isNone)).isEmpty = true := by
      rw [List.isEmpty_iff, List.filter_eq_nil_iff]
      intro a ha
      simp only [Option.isNone_iff_eq_none]
      exact hall a ha
    simp [validate_event_fields, hmiss]
  · rintro ⟨k0, hk0mem, hk0⟩
    have hk0f : k0 ∈ REQUIRED_EVENT_FIELDS.filter (fun k => (edGet ed k).isNone) :=
      List.mem_filter.mpr ⟨hk0mem, by simp [hk0]⟩
    have hne : (REQUIRED_EVENT_FIELDS.filter (fun k => (edGet ed k).isNone)).isEmpty = false := by
      cases hmty : (REQUIRED_EVENT_FIELDS.filter (fun k => (edGet ed k).isNone)).isEmpty with
      | false => rfl
      | true =>
        rw [List.isEmpty_iff] at hmty
        rw [hmty] at hk0f
        cases hk0f
    refine ⟨"Skipping \x27" ++ validationTitle ed index ++
      "\x27 - missing required fields: " ++
      renderFieldSet (REQUIRED_EVENT_FIELDS.filter (fun k => (edGet ed k).isNone)),
      ?_, ?_, ?_⟩
    · simp [validate_event_fields, hne]
    · unfold strContains
      simp only [string_data_append, List.append_assoc]
      exact containsSub_append_left _ _ _
        (containsSub_of_leadsWith _ _ (leadsWith_append _ _))
    · intro k hkmem hknone
      have hkf : k ∈ REQUIRED_EVENT_FIELDS.filter (fun k => (edGet ed k).isNone) :=
        List.mem_filter.mpr ⟨hkmem, by simp [hknone]⟩
      unfold strContains renderFieldSet
      simp only [string_data_append, List.append_assoc]
      refine containsSub_append_left _ _ _ (containsSub_append_left _ _ _
        (containsSub_append_left _ _ _ (containsSub_append_left _ _ _ ?_)))
      exact containsSub_append_right _ _ _ (quoteJoin_contains _ _ hkf)
  · intro w hw env
    simp [build_single_event_ics, hw]

/-- Witness for C6 (amended) at a dict missing the "date" key. -/
theorem c6_witness :
    (∃ k ∈ REQUIRED_EVENT_FIELDS,
      edGet [("uid", some "u-1"), ("title", some "Standup"), ("start_time", some "9:00"),
             ("end_time", some "9:30"), ("timezone", some "UTC")] k = none) ∧
    (∃ w, validate_event_fields
        [("uid", some "u-1"), ("title", some "Standup"), ("start_time", some "9:00"),
         ("end_time", some "9:30"), ("timezone", some "UTC")] 0 = some w ∧
      strContains w (validationTitle
        [("uid", some "u-1"), ("title", some "Standup"), ("start_time", some "9:00"),
         ("end_time", some "9:30"), ("timezone", some "UTC")] 0) = true ∧
      (∀ k ∈ REQUIRED_EVENT_FIELDS,
        edGet [("uid", some "u-1"), ("title", some "Standup"), ("start_time", some "9:00"),
               ("end_time", some "9:30"), ("timezone", some "UTC")] k = none →
        strContains w k = true)) :=
  ⟨by decide,
   (c6_amended_validation_checks_keys
     [("uid", some "u-1"), ("title", some "Standup"), ("start_time", some "9:00"),
      ("end_time", some "9:30"), ("timezone", some "UTC")] 0).2.1 (by decide)⟩

/-! ## Claims about the event builder -/

/-- Both datetimes produced by a successful `_parse_event_datetime` carry
the UTC zone: they are the results of `astimezone(pytz.utc)`. -/
theorem parse_event_datetime_utc (env : BuildEnv) (ed : EventDict) (dtr : DateTimeResult)
    (h : parse_event_datetime env ed = .ok dtr) :
    dtr.start_utc.zone = utcTZ ∧ dtr.end_utc.zone = utcTZ := by
  simp only [parse_event_datetime] at h
  repeat' split at h
  any_goals exact (Except.noConfusion h)
  injection h with h2
  subst h2
  exact ⟨rfl, rfl⟩

/-- The UID property of the built VEVENT. -/
theorem getProp_create_uid (env : BuildEnv) (ed : EventDict) (dtr : DateTimeResult) :
    getProp (create_ics_event env ed dtr) "UID" = some (.text (uidOf env ed)) := by
  rcases hL : edGet ed "location" with _ | (_ | l) <;>
    rcases hD : edGet ed "description" with _ | (_ | d) <;>
    unfold create_ics_event getProp <;>
    simp only [hL, hD] <;>
    (try split_ifs) <;>
    simp [lookupVal, List.find?]

/-- The DTSTART property of the built VEVENT. -/
theorem getProp_create_dtstart (env : BuildEnv) (ed : EventDict) (dtr : DateTimeResult) :
    getProp (create_ics_event env ed dtr) "DTSTART" = some (.dt dtr.start_utc) := by
  rcases hL : edGet ed "location" with _ | (_ | l) <;>
    rcases hD : edGet ed "description" with _ | (_ | d) <;>
    unfold create_ics_event getProp <;>
    simp only [hL, hD] <;>
    (try split_ifs) <;>
    simp [lookupVal, List.find?]

/-- The DTEND property of the built VEVENT. -/
theorem getProp_create_dtend (env : BuildEnv) (ed : EventDict) (dtr : DateTimeResult) :
    getProp (create_ics_event env ed dtr) "DTEND" = some (.dt dtr.end_utc) := by
  rcases hL : edGet ed "location" with _ | (_ | l) <;>
    rcases hD : edGet ed "description" with _ | (_ | d) <;>
    unfold create_ics_event getProp <;>
    simp only [hL, hD] <;>
    (try split_ifs) <;>
    simp [lookupVal, List.find?]

/-- Claim C2: for an event dict that passes validation, whose date, time
and timezone strings parse (`_parse_event_datetime` succeeds), and whose
uid field is a non-empty string, `_build_single_event_ics` succeeds and
its calendar contains exactly one VEVENT whose DTSTART/DTEND are the
parsed instants in UTC and whose UID is the record's own uid. -/
theorem c2_build_produces_single_utc_vevent (env : BuildEnv) (ed : EventDict) (u : String)
    (dtr : DateTimeResult)
    (huid : edGet ed "uid" = some (some u)) (hu : u ≠ "")
    (hval : validate_event_fields ed 0 = none)
    (hparse : parse_event_datetime env ed = .ok dtr) :
    (build_single_event_ics env ed 0).success = true ∧
    (build_single_event_ics env ed 0).ics_content =
      some (addComponent create_ics_calendar (create_ics_event env ed dtr)) ∧
    (addComponent create_ics_calendar (create_ics_event env ed dtr)).subcomponents =
      [create_ics_event env ed dtr] ∧
    (create_ics_event env ed dtr).name = "VEVENT" ∧
    getProp (create_ics_event env ed dtr) "UID" = some (.text u) ∧
    getProp (create_ics_event env ed dtr) "DTSTART" = some (.dt dtr.start_utc) ∧
    getProp (create_ics_event env ed dtr) "DTEND" = some (.dt dtr.end_utc) ∧
    dtr.start_utc.zone = utcTZ ∧ dtr.end_utc.zone = utcTZ := by
  have huids : uidOf env ed = u := by simp [uidOf, huid, hu]
  have hutc := parse_event_datetime_utc env ed dtr hparse
  refine ⟨?_, ?_, rfl, rfl, ?_, getProp_create_dtstart env ed dtr,
    getProp_create_dtend env ed dtr, hutc.1, hutc.2⟩
  · simp [build_single_event_ics, hval, hparse]
  · simp [build_single_event_ics, hval, hparse]
  · rw [← huids]
    exact getProp_create_uid env ed dtr

/-- Concrete zone model of America/New_York for witnesses (UTC-5 standard,
UTC-4 DST over one long interval). -/
def nyZone : PytzZone := ⟨-300, -240, 0, 1000000000⟩

/-- Concrete zone environment for witnesses. -/
def testTZEnv : TZEnv :=
  ⟨"America/New_York", fun n => n == "America/New_York", fun _ => nyZone,
   fun _ => false, fun _ _ => 0⟩

/-- Concrete builder environment for witnesses: a dateutil model that
parses exactly the strings the witness dicts use. -/
def testEnv : BuildEnv :=
  ⟨testTZEnv,
   fun s => if s == "2024-08-15" then some 19950 else none,
   fun s => if s == "19:30" then some 1170 else if s == "21:00" then some 1260 else none,
   5000000, "generated-uuid-0001"⟩

/-- Concrete event dict for the C2 witness. -/
def testEd : EventDict :=
  [("uid", some "rec-uid-7"), ("title", some "Dinner with Mia"),
   ("start_time", some "19:30"), ("end_time", some "21:00"),
   ("date", some "2024-08-15"), ("timezone", some "EST")]

/-- Witness for C2 at `testEd` (start 19:30 EST on 2024-08-15, i.e. UTC
instant 28729410 in minutes; end 28729500). -/
theorem c2_witness :
    (edGet testEd "uid" = some (some "rec-uid-7") ∧ "rec-uid-7" ≠ "" ∧
     validate_event_fields testEd 0 = none ∧
     parse_event_datetime testEnv testEd =
       .ok ⟨⟨28729410, utcTZ⟩, ⟨28729500, utcTZ⟩, none⟩) ∧
    ((build_single_event_ics testEnv testEd 0).success = true ∧
     (build_single_event_ics testEnv testEd 0).ics_content =
       some (addComponent create_ics_calendar
         (create_ics_event testEnv testEd ⟨⟨28729410, utcTZ⟩, ⟨28729500, utcTZ⟩, none⟩)) ∧
     (addComponent create_ics_calendar
       (create_ics_event testEnv testEd
         ⟨⟨28729410, utcTZ⟩, ⟨28729500, utcTZ⟩, none⟩)).subcomponents =
       [create_ics_event testEnv testEd ⟨⟨28729410, utcTZ⟩, ⟨28729500, utcTZ⟩, none⟩] ∧
     (create_ics_event testEnv testEd
       ⟨⟨28729410, utcTZ⟩, ⟨28729500, utcTZ⟩, none⟩).name = "VEVENT" ∧
     getProp (create_ics_event testEnv testEd
       ⟨⟨28729410, utcTZ⟩, ⟨28729500, utcTZ⟩, none⟩) "UID" = some (.text "rec-uid-7") ∧
     getProp (create_ics_event testEnv testEd
       ⟨⟨28729410, utcTZ⟩, ⟨28729500, utcTZ⟩, none⟩) "DTSTART" =
       some (.dt ⟨28729410, utcTZ⟩) ∧
     getProp (create_ics_event testEnv testEd
       ⟨⟨28729410, utcTZ⟩, ⟨28729500, utcTZ⟩, none⟩) "DTEND" =
       some (.dt ⟨28729500, utcTZ⟩) ∧
     (⟨28729410, utcTZ⟩ : AwareDT).zone = utcTZ ∧
     (⟨28729500, utcTZ⟩ : AwareDT).zone = utcTZ) :=
  ⟨⟨by decide, by decide, by decide, by rfl⟩,
   c2_build_produces_single_utc_vevent testEnv testEd "rec-uid-7"
     ⟨⟨28729410, utcTZ⟩, ⟨28729500, utcTZ⟩, none⟩
     (by decide) (by decide) (by decide) (by rfl)⟩

/-! ## Claim about DESCRIPTION escaping -/

/-- Concrete event dict for the C9 round-trip. -/
def edC9 : EventDict :=
  [("uid", some "rec-uid-9"), ("title", some "Notes"),
   ("start_time", some "19:30"), ("end_time", some "21:00"),
   ("date", some "2024-08-15"), ("timezone", some "EST"),
   ("description", some "line1\nline2, with, commas")]

/-- Claim C9: building a document from a record whose description holds a
newline and commas serializes the DESCRIPTION with RFC5545 text escaping,
and re-parsing (unescaping) that line restores the original description
string exactly. -/
theorem c9_description_roundtrip :
    descriptionLineOf (build_single_event_ics testEnv edC9 0) =
      some ("DESCRIPTION:" ++ icsEscapeText "line1\nline2, with, commas") ∧
    parseDescriptionLine ("DESCRIPTION:" ++ icsEscapeText "line1\nline2, with, commas") =
      some "line1\nline2, with, commas" ∧
    icsUnescapeText (icsEscapeText "line1\nline2, with, commas") =
      "line1\nline2, with, commas" := by
  refine ⟨by rfl, by decide, by decide⟩

/-! ## Claims about calendar merging -/

/-- Invariant of the merge loop: every VEVENT added so far carries a
freshly generated UID of the form `{uuid}@nl-calendar`. -/
def vEventUidInv (fresh : Nat → String) (st : MergeState) : Prop :=
  ∀ v ∈ st.comps, v.name = "VEVENT" →
    ∃ k, getProp v "UID" = some (.text (fresh k ++ "@nl-calendar"))

/-- One merge step preserves the fresh-UID invariant. -/
theorem processComponent_inv (fresh : Nat → String) (st : MergeState) (c : VComponent)
    (h : vEventUidInv fresh st) : vEventUidInv fresh (processComponent fresh st c) := by
  by_cases h1 : c.name = "VTIMEZONE"
  · simp only [processComponent, if_pos h1]
    split
    · exact h
    · intro v hv hname
      rcases List.mem_append.mp hv with hv | hv
      · exact h v hv hname
      · have hvc : v = c := by simpa using hv
        subst hvc
        exact absurd (h1.symm.trans hname) (by decide)
  · by_cases h2 : c.name = "VEVENT"
    · simp only [processComponent, if_neg h1, if_pos h2]
      intro v hv hname
      rcases List.mem_append.mp hv with hv | hv
      · exact h v hv hname
      · have hvc : v = setProp c "UID" (.text (fresh st.uidCount ++ "@nl-calendar")) := by
          simpa using hv
        subst hvc
        exact ⟨st.uidCount, getProp_setProp c "UID" _⟩
    · simp only [processComponent, if_neg h1, if_neg h2]
      intro v hv hname
      rcases List.mem_append.mp hv with hv | hv
      · exact h v hv hname
      · have hvc : v = c := by simpa using hv
        subst hvc
        exact absurd hname h2

/-- The merge fold preserves the fresh-UID invariant. -/
theorem foldl_processComponent_inv (fresh : Nat → String) (l : List VComponent)
    (st : MergeState) (h : vEventUidInv fresh st) :
    vEventUidInv fresh (l.foldl (processComponent fresh) st) := by
  induction l generalizing st with
  | nil => exact h
  | cons c rest ih => exact ih _ (processComponent_inv fresh st c h)

/-- Parsing a list of payloads that all parse returns exactly those
calendars. -/
theorem parseIcsGo_map_ok (cals : List VCalendar) (i : Nat) :
    parseIcsGo i (cals.map (fun c => some (.ok c))) = .ok cals := by
  induction cals generalizing i with
  | nil => rfl
  | cons c rest ih => simp [parseIcsGo, ih]

/-- Unfolding lemma for association-list lookup. -/
theorem lookupVal_cons (a : String × VPropVal) (l : List (String × VPropVal)) (k : String) :
    lookupVal (a :: l) k = if a.1 == k then some a.2 else lookupVal l k := by
  cases h : a.1 == k <;> simp [lookupVal, List.find?, h]

/-- Lookup distributes over append, first list first. -/
theorem lookupVal_append (l1 l2 : List (String × VPropVal)) (k : String) :
    lookupVal (l1 ++ l2) k =
      match lookupVal l1 k with
      | some v => some v
      | none => lookupVal l2 k := by
  induction l1 with
  | nil => simp [lookupVal]
  | cons a rest ih =>
    cases h : a.1 == k with
    | true => simp [List.cons_append, lookupVal_cons, h]
    | false => simp [List.cons_append, lookupVal_cons, h, ih]

/-- The first-wins copy loop of `_create_merged_calendar` resolves a
property name to the accumulator's binding if present, else to the first
occurrence in the copied item stream. -/
theorem copyPropsFrom_lookup (items acc : List (String × VPropVal)) (k : String) :
    lookupVal (copyPropsFrom acc items) k =
      match lookupVal acc k with
      | some v => some v
      | none => lookupVal items k := by
  induction items generalizing acc with
  | nil =>
    cases h : lookupVal acc k with
    | none =>
      simp only [copyPropsFrom, List.foldl_nil, h]
      rfl
    | some v => simp [copyPropsFrom, h]
  | cons p rest ih =>
    have hstep : copyPropsFrom acc (p :: rest) =
        copyPropsFrom (if (lookupVal acc p.1).isNone then acc ++ [p] else acc) rest := rfl
    rw [hstep, ih]
    by_cases hp : (lookupVal acc p.1).isNone = true
    · rw [if_pos hp, lookupVal_append]
      cases hacc : lookupVal acc k with
      | some v => rfl
      | none =>
        rw [lookupVal_cons]
        cases hpk : p.1 == k with
        | true => simp [lookupVal_cons, hpk]
        | false => simp [lookupVal_cons, hpk, lookupVal]
    · rw [if_neg hp]
      cases hacc : lookupVal acc k with
      | some v => rfl
      | none =>
        have hpk : (p.1 == k) = false := by
          cases hq : p.1 == k with
          | false => rfl
          | true =>
            rw [show p.1 = k from by simpa using hq, hacc] at hp
            simp at hp
        simp [lookupVal_cons, hpk]

/-- Appending an absent default does not change the lookup of a different
name. -/
theorem ensureProp_lookup_ne (ps : List (String × VPropVal)) (k' : String) (v : VPropVal)
    (k : String) (h : (k' == k) = false) :
    lookupVal (ensureProp ps k' v) k = lookupVal ps k := by
  unfold ensureProp
  split
  · rw [lookupVal_append]
    cases hk : lookupVal ps k with
    | some w => rfl
    | none => simp [lookupVal_cons, h, lookupVal]
  · rfl

/-- Claim C1, amended: merging a non-empty list of parseable documents
replaces the UID of every VEVENT in the output with a freshly generated
`{uuid}@nl-calendar` value — in particular `merge([doc])` returns the
same single VEVENT with only its UID regenerated, and no source UID
remains as the UID of any output VEVENT — but the metadata-copy loop
iterates icalendar's recursive `property_items()`, so the first source
VEVENT's own UID is copied into the merged calendar's top-level
properties and does survive into the merged output (final conjunct, for a
single-document merge whose calendar has no top-level UID of its own). -/
theorem c1_amended_merge_regenerates_vevent_uids (fresh : Nat → String) (cals : List VCalendar)
    (hne : cals ≠ [])
    (hfresh : ∀ k u, u ∈ sourceEventUids cals → fresh k ++ "@nl-calendar" ≠ u) :
    combine_ics_strings fresh (cals.map (fun c => some (.ok c))) =
      .ok (mergeParsedCalendars fresh cals) ∧
    (∀ v ∈ (mergeParsedCalendars fresh cals).subcomponents, v.name = "VEVENT" →
      ∃ k, getProp v "UID" = some (.text (fresh k ++ "@nl-calendar"))) ∧
    (∀ v ∈ (mergeParsedCalendars fresh cals).subcomponents, v.name = "VEVENT" →
      ∀ u, getProp v "UID" = some (.text u) → u ∉ sourceEventUids cals) ∧
    (∀ (props : List (String × VPropVal)) (e : VComponent),
      cals = [⟨props, [e]⟩] → e.name = "VEVENT" →
      (mergeParsedCalendars fresh cals).subcomponents =
        [setProp e "UID" (.text (fresh 0 ++ "@nl-calendar"))]) ∧
    (∀ (props : List (String × VPropVal)) (e : VComponent) (uval : VPropVal),
      cals = [⟨props, [e]⟩] → lookupVal props "UID" = none →
      getProp e "UID" = some uval →
      lookupVal (mergeParsedCalendars fresh cals).props "UID" = some uval) := by
  have hinv : ∀ v ∈ (mergeParsedCalendars fresh cals).subcomponents, v.name = "VEVENT" →
      ∃ k, getProp v "UID" = some (.text (fresh k ++ "@nl-calendar")) := by
    have base : vEventUidInv fresh ⟨[], [], 0⟩ := by
      intro v hv
      cases hv
    exact foldl_processComponent_inv fresh _ _ base
  refine ⟨?_, hinv, ?_, ?_, ?_⟩
  · have hde : (cals.map (fun c => (some (.ok c) : ICSPayload))).isEmpty = false := by
      cases cals with
      | nil => exact absurd rfl hne
      | cons a l => rfl
    have hce : cals.isEmpty = false := by
      cases cals with
      | nil => exact absurd rfl hne
      | cons a l => rfl
    simp [combine_ics_strings, parse_ics_strings, hde, hce, parseIcsGo_map_ok]
  · intro v hv hname u hu
    obtain ⟨k, hk⟩ := hinv v hv hname
    have heq := hu.symm.trans hk
    simp only [Option.some.injEq, VPropVal.text.injEq] at heq
    intro hmem
    exact hfresh k u hmem heq.symm
  · intro props e hcals hname
    subst hcals
    show (add_components_to_merged fresh [⟨props, [e]⟩]).comps = _
    unfold add_components_to_merged
    simp [processComponent, hname]
  · rintro props ⟨ename, eprops, esubs⟩ uval hcals hprops huid
    subst hcals
    have huid' : lookupVal eprops "UID" = some uval := huid
    have hnil : lookupVal ([] : List (String × VPropVal)) "UID" = none := rfl
    show lookupVal (create_merged_calendar
      [⟨props, [VComponent.mk ename eprops esubs]⟩]).props "UID" = some uval
    unfold create_merged_calendar
    rw [ensureProp_lookup_ne _ _ _ _ (by decide),
      ensureProp_lookup_ne _ _ _ _ (by decide),
      ensureProp_lookup_ne _ _ _ _ (by decide)]
    show lookupVal (copyPropsFrom []
      (calendarPropertyItems ⟨props, [VComponent.mk ename eprops esubs]⟩)) "UID" = some uval
    rw [copyPropsFrom_lookup]
    unfold calendarPropertyItems componentListPropertyItems componentPropertyItems
    simp [hnil, lookupVal_cons, lookupVal_append, hprops, huid']

/-- Concrete single-VEVENT source document for merge witnesses. -/
def srcCal : VCalendar :=
  ⟨[("PRODID", .text "-//Src//EN"), ("VERSION", .text "2.0")],
   [.mk "VEVENT" [("UID", .text "old-uid-1"), ("SUMMARY", .text "Party")] []]⟩

/-- Constant fresh-UID supply for merge witnesses (models one
`uuid.uuid4()` draw). -/
def freshW : Nat → String := fun _ => "3f2b6c1e-witness"

/-- Claim C1, counterexample: merging the single document `srcCal` (whose
VEVENT has UID "old-uid-1") succeeds, and the merged calendar's top-level
properties contain that very source UID, copied there by the recursive
`property_items()` walk — so a source VEVENT UID does survive into the
merged output, contradicting the claim's final clause. -/
theorem c1_counterexample :
    combine_ics_strings freshW [some (.ok srcCal)] =
      .ok (mergeParsedCalendars freshW [srcCal]) ∧
    lookupVal (mergeParsedCalendars freshW [srcCal]).props "UID" =
      some (.text "old-uid-1") ∧
    sourceEventUids [srcCal] = ["old-uid-1"] :=
  ⟨rfl, rfl, rfl⟩

/-- Witness for C1 (amended): merging the single document `srcCal`. -/
theorem c1_witness :
    (([srcCal] : List VCalendar) ≠ [] ∧
     (∀ k u, u ∈ sourceEventUids [srcCal] → freshW k ++ "@nl-calendar" ≠ u)) ∧
    (combine_ics_strings freshW ([srcCal].map (fun c => some (.ok c))) =
      .ok (mergeParsedCalendars freshW [srcCal]) ∧
     (∀ v ∈ (mergeParsedCalendars freshW [srcCal]).subcomponents, v.name = "VEVENT" →
       ∃ k, getProp v "UID" = some (.text (freshW k ++ "@nl-calendar"))) ∧
     (∀ v ∈ (mergeParsedCalendars freshW [srcCal]).subcomponents, v.name = "VEVENT" →
       ∀ u, getProp v "UID" = some (.text u) → u ∉ sourceEventUids [srcCal]) ∧
     (∀ (props : List (String × VPropVal)) (e : VComponent),
       ([srcCal] : List VCalendar) = [⟨props, [e]⟩] → e.name = "VEVENT" →
       (mergeParsedCalendars freshW [srcCal]).subcomponents =
         [setProp e "UID" (.text (freshW 0 ++ "@nl-calendar"))]) ∧
     (∀ (props : List (String × VPropVal)) (e : VComponent) (uval : VPropVal),
       ([srcCal] : List VCalendar) = [⟨props, [e]⟩] → lookupVal props "UID" = none →
       getProp e "UID" = some uval →
       lookupVal (mergeParsedCalendars freshW [srcCal]).props "UID" = some uval)) :=
  ⟨⟨List.cons_ne_nil _ _,
    fun k u hu => by
      have hu1 : u = "old-uid-1" := by
        have hs : sourceEventUids [srcCal] = ["old-uid-1"] := rfl
        rw [hs] at hu
        simpa using hu
      subst hu1
      exact (by decide : "3f2b6c1e-witness" ++ "@nl-calendar" ≠ "old-uid-1")⟩,
   c1_amended_merge_regenerates_vevent_uids freshW [srcCal] (List.cons_ne_nil _ _)
     (fun k u hu => by
       have hu1 : u = "old-uid-1" := by
         have hs : sourceEventUids [srcCal] = ["old-uid-1"] := rfl
         rw [hs] at hu
         simpa using hu
       subst hu1
       exact (by decide : "3f2b6c1e-witness" ++ "@nl-calendar" ≠ "old-uid-1"))⟩

/-- Parsing payloads without malformed entries succeeds, and the result is
non-empty as soon as one payload is a parsed document. -/
theorem parseIcsGo_ok_of_no_error (docs : List ICSPayload)
    (h : ∀ d ∈ docs, ∀ e : String, d ≠ some (.error e)) (i : Nat) :
    ∃ cs, parseIcsGo i docs = .ok cs ∧
      ((∃ d ∈ docs, ∃ c, d = some (.ok c)) → cs ≠ []) := by
  induction docs generalizing i with
  | nil => exact ⟨[], rfl, by simp⟩
  | cons d rest ih =>
    have hrest : ∀ x ∈ rest, ∀ e : String, x ≠ some (.error e) :=
      fun x hx => h x (List.mem_cons_of_mem d hx)
    rcases d with _ | (e | c)
    · obtain ⟨cs, hcs, hne⟩ := ih hrest (i + 1)
      refine ⟨cs, by simpa [parseIcsGo] using hcs, ?_⟩
      rintro ⟨x, hx, cx, hcx⟩
      rcases List.mem_cons.mp hx with hx | hx
      · subst hx
        cases hcx
      · exact hne ⟨x, hx, cx, hcx⟩
    · exact absurd rfl (h _ (List.mem_cons_self _ _) e)
    · obtain ⟨cs, hcs, _⟩ := ih hrest (i + 1)
      exact ⟨c :: cs, by simp [parseIcsGo, hcs], by simp⟩

/-- Parsing a list whose entries are all Python `None` yields no
calendars. -/
theorem parseIcsGo_all_none (docs : List ICSPayload)
    (h : ∀ d ∈ docs, d = none) (i : Nat) : parseIcsGo i docs = .ok [] := by
  induction docs generalizing i with
  | nil => rfl
  | cons d rest ih =>
    have hd := h d (List.mem_cons_self d rest)
    subst hd
    simpa [parseIcsGo] using ih (fun x hx => h x (List.mem_cons_of_mem _ hx)) (i + 1)

/-- Claim C4, counterexample: a list holding one parseable document and
one malformed document makes `combine_ics_strings` raise the parse error
(index 1), contradicting the claim that it returns a merged document
whenever at least one document parses. -/
theorem c4_counterexample :
    combine_ics_strings freshW [some (.ok srcCal), some (.error "bad syntax")] =
      .error "Failed to parse ICS payload at index 1: bad syntax" := rfl

/-- Claim C4, amended: the merge fails on an empty input list with the
"no input" error, fails with the "no parseable" error when every entry is
`None`, raises a parse error as soon as any single entry is malformed
(shown by the counterexample), and returns a merged document exactly when
the list is non-empty, at least one entry parses and no entry is
malformed. -/
theorem c4_amended_merge_failure_conditions (fresh : Nat → String) :
    combine_ics_strings fresh [] = .error "No ICS data provided to combine." ∧
    (∀ docs : List ICSPayload, docs ≠ [] → (∀ d ∈ docs, d = none) →
      combine_ics_strings fresh docs = .error "No parseable ICS data provided.") ∧
    (∀ docs : List ICSPayload, docs ≠ [] →
      (∃ d ∈ docs, ∃ c, d = some (.ok c)) →
      (∀ d ∈ docs, ∀ e : String, d ≠ some (.error e)) →
      ∃ m, combine_ics_strings fresh docs = .ok m) := by
  refine ⟨rfl, ?_, ?_⟩
  · intro docs hne hall
    have hde : docs.isEmpty = false := by
      cases docs with
      | nil => exact absurd rfl hne
      | cons a l => rfl
    simp [combine_ics_strings, parse_ics_strings, hde, parseIcsGo_all_none docs hall 0]
  · intro docs hne hok hnoerr
    have hde : docs.isEmpty = false := by
      cases docs with
      | nil => exact absurd rfl hne
      | cons a l => rfl
    obtain ⟨cs, hcs, hcne⟩ := parseIcsGo_ok_of_no_error docs hnoerr 0
    have hcse : cs.isEmpty = false := by
      cases cs with
      | nil => exact absurd rfl (hcne hok)
      | cons a l => rfl
    exact ⟨mergeParsedCalendars fresh cs,
      by simp [combine_ics_strings, parse_ics_strings, hde, hcs, hcse]⟩

/-- Witness for C4 (amended) at the one-document list `[srcCal]`. -/
theorem c4_witness :
    (([some (.ok srcCal)] : List ICSPayload) ≠ [] ∧
     (∃ d ∈ ([some (.ok srcCal)] : List ICSPayload), ∃ c, d = some (.ok c)) ∧
     (∀ d ∈ ([some (.ok srcCal)] : List ICSPayload), ∀ e : String,
       d ≠ some (.error e))) ∧
    (∃ m, combine_ics_strings freshW [some (.ok srcCal)] = .ok m) :=
  ⟨⟨List.cons_ne_nil _ _,
    ⟨some (.ok srcCal), List.mem_singleton.mpr rfl, srcCal, rfl⟩,
    fun d hd e => by
      have hd1 : d = some (.ok srcCal) := by simpa using hd
      subst hd1
      intro hcon
      cases hcon⟩,
   (c4_amended_merge_failure_conditions freshW).2.2 [some (.ok srcCal)]
     (List.cons_ne_nil _ _)
     ⟨some (.ok srcCal), List.mem_singleton.mpr rfl, srcCal, rfl⟩
     (fun d hd e => by
       have hd1 : d = some (.ok srcCal) := by simpa using hd
       subst hd1
       intro hcon
       cases hcon)⟩
